import Mathlib

/-!
# Verification of the steam-judger backend against its specification

Shallow embedding of the repository's logic:

* `src/steam.ts` (and its iteration `src/unnamed/part_003`): the upstream
  catalog client `getOwnedSteamGames` (response-shape classification and
  name sort) and the pure formatter `formatGameData`.
* `src/unnamed/part_000` (first, current iteration of `src/index.ts`):
  the `/games/:steamid` orchestrator with the D1 cache, its freshness
  policy and the insert-or-update write.
* `src/unnamed/part_001` (`src/api/ai.ts`): the prompt builder
  `formatGamesForPrompt` and the `/analyze/:steamid` handler.
* `src/db/schema.ts`: the single-row-per-steamId cache table, embedded as
  an association list with unique keys.

Numeric strings: JavaScript's `(minutes / 60).toFixed(1)` is embedded
exactly, double-precision detour included: the IEEE double of
`minutes / 60` is computed as the correctly rounded (ties-to-even)
53-bit significand times a power of two — an exact integer computation —
and the ECMA-262 `toFixed` step then picks the integer number of tenths
closest to that double, preferring the larger on a tie.  This model is
exact for every double-representable playtime (`minutes < 60 · 2^53`);
in particular at 9 minutes it prints "0.1" (the double of `9 / 60` lies
below the `0.15` half-way point), not the "0.2" that exact half-up
rounding of `9 / 60` would give.
`Number.parseFloat` is embedded on decimal literals (optional whitespace,
optional sign, digits, optional fraction), which covers every string the
formatter produces and every string appearing in the claims; exponent and
`Infinity` forms are not modelled.  Parsed values are represented exactly
as `Dec` (an integer mantissa with a power-of-ten scale); `Dec.toQ` maps
them to `ℚ`, and the comparisons used by the code are proved to agree
with the rational ones.  `localeCompare` and `toLocaleDateString` are
locale-dependent and are kept abstract (universally quantified comparator
and date formatter).
-/

/-- An exact decimal value `mant / 10 ^ exp`, the result of parsing a
decimal literal. -/
structure Dec where
  mant : ℤ
  exp : ℕ
deriving DecidableEq, Repr

/-- The rational value of a parsed decimal. -/
def Dec.toQ (d : Dec) : ℚ := d.mant / 10 ^ d.exp

/-- Comparison of two decimal values (by cross multiplication, hence
exact). -/
def Dec.blt (a b : Dec) : Bool := a.mant * 10 ^ b.exp < b.mant * 10 ^ a.exp

/-- Non-strict comparison of two decimal values. -/
def Dec.ble (a b : Dec) : Bool := a.mant * 10 ^ b.exp ≤ b.mant * 10 ^ a.exp

/-- The decimal digit characters, `d ↦ '0'…'9'` for `d < 10`. -/
def digitChar' (d : ℕ) : Char :=
  match d with
  | 0 => '0' | 1 => '1' | 2 => '2' | 3 => '3' | 4 => '4'
  | 5 => '5' | 6 => '6' | 7 => '7' | 8 => '8' | _ => '9'

/-- The JS digit class `[0-9]` (used by `/^\d{17}$/` and by `parseFloat`). -/
def isDigitC (c : Char) : Bool := 48 ≤ c.toNat && c.toNat ≤ 57

/-- Numeric value of a digit character. -/
def digitVal (c : Char) : ℕ := c.toNat - 48

/-- Big-endian decimal digits of `n`, driven by a fuel argument so that
the definition is structurally recursive (any `fuel` with `n < 10 ^ fuel`
yields the digits). -/
def natDigitsGo (fuel n : ℕ) : List Char :=
  match fuel with
  | 0 => []
  | fuel + 1 =>
    if n < 10 then [digitChar' n]
    else natDigitsGo fuel (n / 10) ++ [digitChar' (n % 10)]

/-- Big-endian decimal digit characters of a natural number (the digits a
JS template literal prints for a nonnegative integer). -/
def natDigits (n : ℕ) : List Char := natDigitsGo (n + 1) n

/-- Decimal string of a natural number, as interpolated by JS template
literals. -/
def natToStr (n : ℕ) : String := ⟨natDigits n⟩

/-- Longest digit prefix of a character list, with the rest
(`parseFloat`'s digit scanning). -/
def takeDigits : List Char → List Char × List Char
  | [] => ([], [])
  | c :: cs =>
    if isDigitC c then
      let p := takeDigits cs
      (c :: p.1, p.2)
    else ([], c :: cs)

/-- Value of a big-endian digit-character list. -/
def digitsToNat (ds : List Char) : ℕ := ds.foldl (fun a c => 10 * a + digitVal c) 0

/-- Optional sign at the head of a numeric literal. -/
def parseSign (cs : List Char) : ℤ × List Char :=
  match cs with
  | [] => (1, [])
  | c :: r => if c = '-' then (-1, r) else if c = '+' then (1, r) else (1, c :: r)

/-- `Number.parseFloat` on a character list: sign, integer digits,
optional `.` and fraction digits; trailing garbage is ignored; no digits
at all means NaN (`none`).  The value `i.f` is returned exactly as the
decimal `⟨±(digits of i followed by digits of f), length of f⟩`. -/
def parseFloatCore (cs : List Char) : Option Dec :=
  let sc := parseSign cs
  let ip := takeDigits sc.2
  match ip.2 with
  | c :: r2 =>
    if c = '.' then
      let fp := takeDigits r2
      if ip.1.isEmpty && fp.1.isEmpty then none
      else some ⟨sc.1 * (digitsToNat (ip.1 ++ fp.1) : ℤ), fp.1.length⟩
    else if ip.1.isEmpty then none else some ⟨sc.1 * (digitsToNat ip.1 : ℤ), 0⟩
  | [] => if ip.1.isEmpty then none else some ⟨sc.1 * (digitsToNat ip.1 : ℤ), 0⟩

/-- Leading whitespace skipped by `parseFloat`. -/
def isWsC (c : Char) : Bool := c = ' ' || c = '\t' || c = '\n' || c = '\r'

/-- Embedding of `Number.parseFloat` on decimal literals; `none` is NaN. -/
def parseFloatD (s : String) : Option Dec := parseFloatCore (s.data.dropWhile isWsC)

/-- Round `a / b` to the nearest integer, ties to even — the IEEE 754
rounding performed by floating-point division — for `b > 0`. -/
def roundNearestEven (a b : ℕ) : ℕ :=
  let q := a / b
  let r := a % b
  if 2 * r < b then q
  else if b < 2 * r then q + 1
  else if q % 2 = 0 then q else q + 1

/-- Smallest number of doublings taking `m` up to at least `60 · 2^52`,
the scale at which `m / 60` has a 53-bit integer significand; for
`m ≥ 1` at most 59 are needed, which the fuel argument makes
structural. -/
def findScale : ℕ → ℕ → ℕ
  | 0, _ => 0
  | fuel + 1, m => if 60 * 2 ^ 52 ≤ m then 0 else findScale fuel (2 * m) + 1

/-- The number of tenths printed by `(m / 60).toFixed(1)`: the IEEE
double of `m / 60` is `sig / 2^s` with `sig` the correctly rounded
(ties-to-even) 53-bit significand, and the ECMA-262 `toFixed(1)` step
picks the integer `n` with `n / 10` closest to that double, the larger
`n` on a tie, i.e. `⌊10 · sig / 2^s + 1/2⌋`.  Exact for every
double-representable playtime (`m < 60 · 2^53`).  At half-tenth minutes
the result follows the double: `tenths 9 = 1` ("0.1", the double of
`9 / 60` is below `0.15`) but `tenths 15 = 3` ("0.3", `0.25` is exactly
representable and the tie goes up). -/
def tenths (m : ℕ) : ℕ :=
  if m = 0 then 0
  else
    let s := findScale 59 m
    let sig := roundNearestEven (m * 2 ^ s) 60
    (20 * sig + 2 ^ s) / 2 ^ (s + 1)

/-- The string `(m / 60).toFixed(1)` for `m` minutes. -/
def fixed1 (m : ℕ) : String :=
  natToStr (tenths m / 10) ++ "." ++ natToStr (tenths m % 10)

/-- Raw owned-game record from the upstream API (`GameInfo` in
`src/types/steam.ts`). -/
structure GameInfo where
  appid : ℕ
  name : String
  playtime_forever : ℕ
  img_icon_url : String
  img_logo_url : String
  playtime_windows_forever : ℕ
  playtime_mac_forever : ℕ
  playtime_linux_forever : ℕ
  rtime_last_played : ℕ
deriving DecidableEq, Repr

/-- Display-ready projection (`FormattedGameInfo` in
`src/types/steam.ts`). -/
structure FormattedGameInfo where
  appId : ℕ
  name : String
  playtimeHours : String
  lastPlayed : String
  iconUrl : String
deriving DecidableEq, Repr

/-- Body of the `map` inside `formatGameData` (`src/steam.ts`).
`dateFmt` abstracts `new Date(· ms).toLocaleDateString()`. -/
def formatGame (dateFmt : ℕ → String) (game : GameInfo) : FormattedGameInfo :=
  { appId := game.appid
    name := game.name
    playtimeHours := fixed1 game.playtime_forever ++ " hours"
    lastPlayed :=
      if game.rtime_last_played > 0 then dateFmt (game.rtime_last_played * 1000) else "Never"
    iconUrl :=
      if game.img_icon_url ≠ "" then
        "https://media.steampowered.com/steamcommunity/public/images/apps/"
          ++ natToStr game.appid ++ "/" ++ game.img_icon_url ++ ".jpg"
      else "No Icon URL Available" }

/-- `formatGameData` (`src/steam.ts`): pure map over the raw records. -/
def formatGameData (dateFmt : ℕ → String) (rawGames : List GameInfo) : List FormattedGameInfo :=
  rawGames.map (formatGame dateFmt)

/-- The comparator `(a, b) => a.name.localeCompare(b.name)` as a
preorder; `lc` abstracts the locale-aware `String.localeCompare`. -/
def nameLe (lc : String → String → ℤ) (a b : GameInfo) : Prop := lc a.name b.name ≤ 0

instance (lc : String → String → ℤ) : DecidableRel (nameLe lc) :=
  fun a b => inferInstanceAs (Decidable (lc a.name b.name ≤ 0))

/-- Inner `response` object of the owned-games payload, with field
presence made explicit: `none` is an absent field and `extraKeys` counts
any other keys, so `Object.keys(response).length` is `keyCount`. -/
structure OwnedGamesResponseObj where
  game_count : Option ℕ
  games : Option (List GameInfo)
  extraKeys : ℕ
deriving DecidableEq

/-- `Object.keys(response.data.response).length`. -/
def keyCount (r : OwnedGamesResponseObj) : ℕ :=
  (if r.game_count.isSome then 1 else 0) + (if r.games.isSome then 1 else 0) + r.extraKeys

/-- Response-shape handling of `getOwnedSteamGames` (`src/steam.ts`):
the argument is `response.data` (`none` for a falsy body, `some none`
for a falsy `response` field).  A present `games` array (even empty) is
sorted by name and returned; an empty `response` object means zero
games; anything else is the shape error. -/
def getOwnedSteamGames (lc : String → String → ℤ)
    (data : Option (Option OwnedGamesResponseObj)) : Except String (List GameInfo) :=
  match data with
  | some (some r) =>
    match r.games with
    | some gs => .ok (List.insertionSort (nameLe lc) gs)
    | none =>
      if keyCount r = 0 then .ok []
      else .error "Unexpected response structure from Steam API."
  | _ => .error "Unexpected response structure from Steam API."

/-- `parseFloat(game.playtimeHours) > 0.1`, the filter predicate of
`formatGamesForPrompt` (`src/api/ai.ts`); NaN compares false. -/
def promptKeep (game : FormattedGameInfo) : Bool :=
  match parseFloatD game.playtimeHours with
  | some d => Dec.blt ⟨1, 1⟩ d
  | none => false

/-- Sort key of the prompt builder: the parsed playtime (only applied
after the filter, where parsing succeeded). -/
def playVal (game : FormattedGameInfo) : Dec := (parseFloatD game.playtimeHours).getD ⟨0, 0⟩

/-- `(a, b) => parseFloat(b.playtimeHours) - parseFloat(a.playtimeHours)`:
`a` precedes `b` when its parsed playtime is at least `b`'s (descending,
ties keep input order — JS sort is stable). -/
def playGe (a b : FormattedGameInfo) : Prop := Dec.ble (playVal b) (playVal a) = true

instance : DecidableRel playGe :=
  fun _ _ => inferInstanceAs (Decidable (_ = true))

/-- `MAX_GAMES_IN_PROMPT` (`src/api/ai.ts`). -/
def MAX_GAMES_IN_PROMPT : ℕ := 100

/-- The `relevantGames` pipeline of `formatGamesForPrompt`: filter out
negligible playtime, stable-sort by playtime descending, take the top
100. -/
def relevantGames (games : List FormattedGameInfo) : List FormattedGameInfo :=
  (List.insertionSort playGe (games.filter promptKeep)).take MAX_GAMES_IN_PROMPT

/-- `formatGamesForPrompt` (`src/api/ai.ts`); the argument is `none`
when `games` is absent (falsy). -/
def formatGamesForPrompt (games : Option (List FormattedGameInfo)) : String :=
  match games with
  | none => "The user has no games or the data is unavailable."
  | some gs =>
    if gs.length = 0 then "The user has no games or the data is unavailable."
    else
      if (relevantGames gs).length = 0 then
        "The user owns games, but none have significant playtime recorded."
      else
        String.intercalate "\n"
          ((relevantGames gs).map (fun game => "- " ++ game.name ++ ": " ++ game.playtimeHours))

/-- A row of the `steam_games_cache` table (`src/db/schema.ts`):
formatted game list plus the `cached_at` timestamp in epoch
milliseconds. -/
structure CacheEntry where
  gameData : List FormattedGameInfo
  cachedAt : ℤ
deriving DecidableEq

/-- The cache table: steamId-keyed rows.  The primary key makes the key
list duplicate-free (`keysNodup`). -/
abbrev Store := List (String × CacheEntry)

/-- The primary-key invariant of `steam_games_cache`. -/
def keysNodup (store : Store) : Prop := (store.map Prod.fst).Nodup

/-- `select().from(steamGamesCache).where(eq(steamId)).limit(1)`. -/
def lookupStore (store : Store) (steamId : String) : Option CacheEntry :=
  (store.find? (fun p => p.1 == steamId)).map Prod.snd

/-- `insert().values(...).onConflictDoUpdate(...)`: replace the row with
the conflicting key, or append a new row. -/
def upsertStore (store : Store) (steamId : String) (e : CacheEntry) : Store :=
  if store.any (fun p => p.1 == steamId) then
    store.map (fun p => if p.1 == steamId then (steamId, e) else p)
  else store ++ [(steamId, e)]

/-- `isValidSteamId64` (`src/util.ts`): `/^\d{17}$/`. -/
def isValidSteamId64 (s : String) : Bool := s.length == 17 && s.data.all isDigitC

/-- `CACHE_TTL_SECONDS` (`src/index.ts`): 7 days. -/
def CACHE_TTL_SECONDS : ℕ := 7 * 24 * 60 * 60

/-- The success descriptor returned by `/games/:steamid`. -/
structure GamesResponse where
  dataId : String
  source : String
  gameCount : ℕ
  message : String
deriving DecidableEq

/-- An `HTTPException`: status code and message. -/
structure HTTPErr where
  status : ℕ
  message : String
deriving DecidableEq

/-- The cache-freshness test of the orchestrator: `isExpired` is
`cachedAt <= now - TTL*1000`, and the entry is used only if it is not
expired and its game count is greater than zero. -/
def cacheUsable (now : ℤ) (e : CacheEntry) : Bool :=
  let isExpired := decide (e.cachedAt ≤ now - (CACHE_TTL_SECONDS : ℤ) * 1000)
  !isExpired && decide (0 < e.gameData.length)

/-- Steps 2–4 of the `/games/:steamid` handler (`src/index.ts`): fetch
from the upstream API (`fetch` is the awaited outcome of
`getFormattedSteamGames`), on failure fail with 502 touching nothing, on
success upsert the row (even an empty list) and answer `source = api`. -/
def fetchAndStore (now : ℤ) (store : Store) (steamId : String)
    (fetch : Except String (List FormattedGameInfo)) :
    Except HTTPErr GamesResponse × Store :=
  match fetch with
  | .error msg =>
    (.error ⟨502, "Failed to fetch data from Steam API: "
        ++ (if msg = "" then "Unknown error" else msg)⟩, store)
  | .ok freshGameData =>
    (.ok ⟨steamId, "api", freshGameData.length,
        "Fetched fresh data from Steam API and stored in cache. Games found: "
          ++ natToStr freshGameData.length ++ "."⟩,
      upsertStore store steamId ⟨freshGameData, now⟩)

/-- The message of a cache hit. -/
def cacheHitMessage : String :=
  "Data retrieved from cache. Expires in approximately "
    ++ natToStr CACHE_TTL_SECONDS ++ " seconds from creation."

/-- The `/games/:steamid` handler (`src/index.ts`, current D1 variant):
validation, cache check with the freshness policy, then fetch-and-store.
Returns the HTTP outcome and the resulting cache state. -/
def gamesHandler (now : ℤ) (store : Store) (apiKey steamId : String)
    (fetch : Except String (List FormattedGameInfo)) :
    Except HTTPErr GamesResponse × Store :=
  if !isValidSteamId64 steamId then
    (.error ⟨400, "Invalid SteamID format. Please provide a 64-bit SteamID."⟩, store)
  else if apiKey = "" then
    (.error ⟨500, "Server configuration error: API key missing."⟩, store)
  else
    match lookupStore store steamId with
    | some cachedEntry =>
      if cacheUsable now cachedEntry then
        (.ok ⟨steamId, "cache-d1", cachedEntry.gameData.length, cacheHitMessage⟩, store)
      else fetchAndStore now store steamId fetch
    | none => fetchAndStore now store steamId fetch

/-- The `/analyze/:steamid` handler (`src/api/ai.ts`) up to the point
where the streaming call is issued: an `.ok` value is the rendered
game-data block handed to prompt construction and streaming; every
`.error` short-circuits before any prompt is built or any model call is
made. -/
def analyzeHandler (store : Store) (steamId openaiApiKey : String) :
    Except HTTPErr String :=
  if steamId = "" then .error ⟨400, "Missing dataId parameter."⟩
  else if !isValidSteamId64 steamId then
    .error ⟨400, "Invalid SteamID format. Please provide a 64-bit SteamID."⟩
  else if openaiApiKey = "" then
    .error ⟨500, "Server configuration error: OpenAI API key missing."⟩
  else
    match lookupStore store steamId with
    | none =>
      .error ⟨404, "Game data not found for SteamID: " ++ steamId
          ++ ". Please fetch data first via /api/games/" ++ steamId⟩
    | some results => .ok (formatGamesForPrompt (some results.gameData))

/-- Example values used by the concrete-input theorems. -/
def exSid : String := "76561198000000001"

def exFmt : ℕ → String := fun _ => "1/1/2000"

def exGame : GameInfo := ⟨10, "Half-Life", 125, "", "", 0, 0, 0, 0⟩

def exGame2 : GameInfo := ⟨20, "Portal", 300, "icon", "", 0, 0, 0, 5⟩

def exGame9 : GameInfo := ⟨30, "Nine", 9, "", "", 0, 0, 0, 0⟩

def exLc : String → String → ℤ := fun _ _ => 0

def exA : FormattedGameInfo := ⟨1, "A", "0.05 hours", "Never", "i"⟩

def exB : FormattedGameInfo := ⟨2, "B", "10.0 hours", "Never", "i"⟩

def exC : FormattedGameInfo := ⟨3, "C", "5.0 hours", "Never", "i"⟩

example : fixed1 125 = "2.1" := by decide
example : fixed1 9 = "0.1" := by decide
example : fixed1 15 = "0.3" := by decide
example : fixed1 21 = "0.3" := by decide
example : fixed1 0 = "0.0" := by decide
example : parseFloatD "0.05 hours" = some ⟨5, 2⟩ := by decide
example : parseFloatD "10.0 hours" = some ⟨100, 1⟩ := by decide
example : parseFloatD "hours" = none := by decide
example : Dec.toQ ⟨5, 2⟩ = 1/20 := by norm_num [Dec.toQ]

theorem Dec.blt_iff (a b : Dec) : a.blt b = true ↔ a.toQ < b.toQ := by
  have h1 : (0:ℚ) < 10 ^ a.exp := by positivity
  have h2 : (0:ℚ) < 10 ^ b.exp := by positivity
  rw [Dec.blt, Dec.toQ, Dec.toQ, div_lt_div_iff₀ h1 h2, decide_eq_true_eq]
  constructor
  · intro h
    exact_mod_cast h
  · intro h
    exact_mod_cast h

theorem Dec.ble_iff (a b : Dec) : a.ble b = true ↔ a.toQ ≤ b.toQ := by
  have h1 : (0:ℚ) < 10 ^ a.exp := by positivity
  have h2 : (0:ℚ) < 10 ^ b.exp := by positivity
  rw [Dec.ble, Dec.toQ, Dec.toQ, div_le_div_iff₀ h1 h2, decide_eq_true_eq]
  constructor
  · intro h
    exact_mod_cast h
  · intro h
    exact_mod_cast h

theorem digitVal_digitChar {d : ℕ} (h : d < 10) : digitVal (digitChar' d) = d := by
  interval_cases d <;> rfl

theorem isDigitC_digitChar {d : ℕ} (h : d < 10) : isDigitC (digitChar' d) = true := by
  interval_cases d <;> rfl

theorem isWsC_eq_false_of_digit {c : Char} (h : isDigitC c = true) : isWsC c = false := by
  simp only [isDigitC, Bool.and_eq_true, decide_eq_true_eq] at h
  simp only [isWsC, Bool.or_eq_false_iff, decide_eq_false_iff_not]
  refine ⟨⟨⟨?_, ?_⟩, ?_⟩, ?_⟩ <;> rintro rfl <;> exact absurd h.1 (by decide)

theorem ne_sign_of_digit {c : Char} (h : isDigitC c = true) : c ≠ '-' ∧ c ≠ '+' := by
  simp only [isDigitC, Bool.and_eq_true, decide_eq_true_eq] at h
  constructor <;> rintro rfl <;> exact absurd h.1 (by decide)

theorem takeDigits_of_digits (ds rest : List Char)
    (hds : ∀ c ∈ ds, isDigitC c = true)
    (hrest : ∀ c, rest.head? = some c → isDigitC c = false) :
    takeDigits (ds ++ rest) = (ds, rest) := by
  induction ds with
  | nil =>
    cases rest with
    | nil => rfl
    | cons c r => simp [takeDigits, hrest c rfl]
  | cons c cs ih =>
    have hc : isDigitC c = true := hds c (List.mem_cons_self c cs)
    simp only [List.cons_append, takeDigits, hc, if_true]
    simp only [List.append_eq]
    rw [ih fun x hx => hds x (List.mem_cons_of_mem c hx)]

theorem digitsToNat_from (l : List Char) (a : ℕ) :
    l.foldl (fun a c => 10 * a + digitVal c) a = a * 10 ^ l.length + digitsToNat l := by
  induction l generalizing a with
  | nil => simp [digitsToNat]
  | cons c cs ih =>
    simp only [List.foldl_cons, List.length_cons, digitsToNat] at *
    rw [ih (10 * a + digitVal c), ih (10 * 0 + digitVal c), pow_succ]
    ring

theorem digitsToNat_append (l r : List Char) :
    digitsToNat (l ++ r) = digitsToNat l * 10 ^ r.length + digitsToNat r := by
  rw [digitsToNat, List.foldl_append, ← digitsToNat, digitsToNat_from]

theorem natDigitsGo_succ (fuel n : ℕ) :
    natDigitsGo (fuel + 1) n =
      if n < 10 then [digitChar' n]
      else natDigitsGo fuel (n / 10) ++ [digitChar' (n % 10)] := rfl

theorem lt_ten_pow_succ (n : ℕ) : n < 10 ^ (n + 1) :=
  lt_of_lt_of_le (Nat.lt_pow_self (by norm_num) n)
    (Nat.pow_le_pow_right (by norm_num) (Nat.le_succ n))

theorem natDigitsGo_spec :
    ∀ fuel n, n < 10 ^ (fuel + 1) →
      digitsToNat (natDigitsGo (fuel + 1) n) = n ∧
      (∀ c ∈ natDigitsGo (fuel + 1) n, isDigitC c = true) ∧
      natDigitsGo (fuel + 1) n ≠ [] := by
  intro fuel
  induction fuel with
  | zero =>
    intro n hn
    have h10 : n < 10 := by simpa using hn
    simp only [natDigitsGo_succ, h10, if_true]
    refine ⟨by simp [digitsToNat, digitVal_digitChar h10], ?_, by simp⟩
    intro c hc
    simp only [List.mem_singleton] at hc
    subst hc
    exact isDigitC_digitChar h10
  | succ fuel ih =>
    intro n hn
    by_cases h10 : n < 10
    · simp only [natDigitsGo_succ, h10, if_true]
      refine ⟨by simp [digitsToNat, digitVal_digitChar h10], ?_, by simp⟩
      intro c hc
      simp only [List.mem_singleton] at hc
      subst hc
      exact isDigitC_digitChar h10
    · have hdiv : n / 10 < 10 ^ (fuel + 1) := by
        rw [Nat.div_lt_iff_lt_mul (by norm_num)]
        calc n < 10 ^ (fuel + 1 + 1) := hn
        _ = 10 ^ (fuel + 1) * 10 := by ring
      obtain ⟨hval, hdig, hne⟩ := ih (n / 10) hdiv
      have hmod : n % 10 < 10 := Nat.mod_lt n (by norm_num)
      rw [natDigitsGo_succ (fuel + 1) n, if_neg h10]
      constructor
      · rw [digitsToNat_append, hval]
        simp only [List.length_singleton, digitsToNat, List.foldl_cons, List.foldl_nil,
          digitVal_digitChar hmod]
        omega
      constructor
      · intro c hc
        simp only [List.mem_append, List.mem_singleton] at hc
        rcases hc with hc | hc
        · exact hdig c hc
        · subst hc
          exact isDigitC_digitChar hmod
      · simp

theorem natDigits_val (n : ℕ) : digitsToNat (natDigits n) = n :=
  (natDigitsGo_spec n n (lt_ten_pow_succ n)).1

theorem natDigits_digits (n : ℕ) : ∀ c ∈ natDigits n, isDigitC c = true :=
  (natDigitsGo_spec n n (lt_ten_pow_succ n)).2.1

theorem natDigits_ne_nil (n : ℕ) : natDigits n ≠ [] :=
  (natDigitsGo_spec n n (lt_ten_pow_succ n)).2.2

theorem natDigits_of_lt_ten {n : ℕ} (h : n < 10) : natDigits n = [digitChar' n] := by
  simp [natDigits, natDigitsGo, h]

theorem parseFloatCore_digits (ds fs rest : List Char)
    (hds : ∀ c ∈ ds, isDigitC c = true) (hfs : ∀ c ∈ fs, isDigitC c = true)
    (hne : ds ≠ []) (hrest : ∀ c, rest.head? = some c → isDigitC c = false) :
    parseFloatCore (ds ++ ('.' :: (fs ++ rest)))
      = some ⟨(digitsToNat (ds ++ fs) : ℤ), fs.length⟩ := by
  obtain ⟨c, cs, hcons⟩ := List.exists_cons_of_ne_nil hne
  have hc : isDigitC c = true := hds c (by rw [hcons]; exact List.mem_cons_self _ _)
  have hsign : parseSign (ds ++ ('.' :: (fs ++ rest))) = (1, ds ++ ('.' :: (fs ++ rest))) := by
    rw [hcons, List.cons_append, parseSign]
    simp [(ne_sign_of_digit hc).1, (ne_sign_of_digit hc).2]
  have htake1 : takeDigits (ds ++ ('.' :: (fs ++ rest))) = (ds, '.' :: (fs ++ rest)) :=
    takeDigits_of_digits _ _ hds (by
      intro x hx
      simp only [List.head?_cons, Option.some.injEq] at hx
      subst hx
      decide)
  have htake2 : takeDigits (fs ++ rest) = (fs, rest) :=
    takeDigits_of_digits _ _ hfs hrest
  have hemp : ds.isEmpty = false := by rw [hcons]; rfl
  simp only [parseFloatCore, hsign, htake1, htake2, hemp, Bool.false_and,
    Bool.false_eq_true, if_false, if_pos rfl]
  norm_num

theorem parse_fixed1 (m : ℕ) :
    parseFloatD (fixed1 m ++ " hours") = some ⟨(tenths m : ℤ), 1⟩ := by
  have hb : tenths m % 10 < 10 := Nat.mod_lt _ (by norm_num)
  have hdot : (".").data = ['.'] := rfl
  have hhours : (" hours").data = ' ' :: ['h', 'o', 'u', 'r', 's'] := rfl
  have hdata : (fixed1 m ++ " hours").data
      = natDigits (tenths m / 10)
        ++ ('.' :: (natDigits (tenths m % 10) ++ (' ' :: ['h', 'o', 'u', 'r', 's']))) := by
    simp [fixed1, natToStr, String.data_append, hdot, hhours]
  obtain ⟨c, cs, hcons⟩ := List.exists_cons_of_ne_nil (natDigits_ne_nil (tenths m / 10))
  have hc : isDigitC c = true :=
    natDigits_digits _ c (by rw [hcons]; exact List.mem_cons_self _ _)
  have hdrop : ((fixed1 m ++ " hours").data).dropWhile isWsC = (fixed1 m ++ " hours").data := by
    rw [hdata, hcons]
    simp [List.dropWhile_cons, isWsC_eq_false_of_digit hc]
  rw [parseFloatD, hdrop, hdata,
    parseFloatCore_digits _ _ _ (natDigits_digits _) (natDigits_digits _) (natDigits_ne_nil _)
      (by
        intro x hx
        simp only [List.head?_cons, Option.some.injEq] at hx
        subst hx
        decide)]
  rw [natDigits_of_lt_ten hb, digitsToNat_append, natDigits_val]
  simp only [List.length_singleton, digitsToNat, List.foldl_cons, List.foldl_nil,
    digitVal_digitChar hb, Option.some.injEq, Dec.mk.injEq]
  constructor
  · push_cast
    omega
  · trivial

/-- `(m + 3) / 6` in natural division is exactly `m * 10 / 60` rounded
to the nearest integer with half-way values up — the idealized
exact-arithmetic reading of `toFixed(1)` on `m / 60`. -/
theorem halfUp_eq_round (m : ℕ) : (((m + 3) / 6 : ℕ) : ℤ) = round ((m : ℚ) * 10 / 60) := by
  have h6 : ((m : ℚ) * 10 / 60) = (m : ℚ) / 6 := by ring
  rw [h6, round_eq]
  have h2 : (m : ℚ) / 6 + 1 / 2 = ((m + 3 : ℕ) : ℚ) / 6 := by push_cast; ring
  rw [h2]
  rw [eq_comm, Int.floor_eq_iff]
  constructor
  · rw [le_div_iff₀ (by norm_num : (0:ℚ) < 6)]
    have : ((m + 3) / 6) * 6 ≤ m + 3 := by omega
    exact_mod_cast this
  · rw [div_lt_iff₀ (by norm_num : (0:ℚ) < 6)]
    have : m + 3 < ((m + 3) / 6 + 1) * 6 := by omega
    exact_mod_cast this

theorem toQ_tenths (t : ℕ) : Dec.toQ ⟨(t : ℤ), 1⟩ = (t : ℚ) / 10 := by
  simp [Dec.toQ]


theorem find?_eq_head?_filter (p : α → Bool) (l : List α) :
    l.find? p = (l.filter p).head? := by
  induction l with
  | nil => rfl
  | cons a l ih =>
    cases h : p a with
    | true => rw [List.find?_cons_of_pos _ h, List.filter_cons_of_pos h, List.head?_cons]
    | false => rw [List.find?_cons_of_neg _ (by simp [h]), List.filter_cons_of_neg (by simp [h]), ih]

theorem filter_upsertStore (store : Store) (steamId : String) (e : CacheEntry)
    (h : keysNodup store) :
    (upsertStore store steamId e).filter (fun p => p.1 == steamId) = [(steamId, e)] := by
  induction store with
  | nil => simp [upsertStore, List.filter_cons]
  | cons p rest ih =>
    rw [keysNodup, List.map_cons, List.nodup_cons] at h
    obtain ⟨hnotin, hnd⟩ := h
    by_cases hp : p.1 == steamId
    · have hpid : p.1 = steamId := eq_of_beq hp
      rw [upsertStore, if_pos (by simp [List.any_cons, hp])]
      rw [List.map_cons, if_pos hp, List.filter_cons]
      simp only [beq_self_eq_true, if_true]
      have hrest : (rest.map (fun q => if q.1 == steamId then (steamId, e) else q)).filter
          (fun q => q.1 == steamId) = [] := by
        rw [List.filter_eq_nil_iff]
        intro q hq
        rw [List.mem_map] at hq
        obtain ⟨q₀, hq₀, hfq⟩ := hq
        have hq₀ne : (q₀.1 == steamId) = false := by
          rw [beq_eq_false_iff_ne]
          intro hcontra
          exact hnotin (hpid ▸ hcontra ▸ List.mem_map_of_mem Prod.fst hq₀)
        rw [hq₀ne] at hfq
        simp only [Bool.false_eq_true, if_false] at hfq
        subst hfq
        simp [hq₀ne]
      rw [hrest]
    · by_cases hany : rest.any (fun q => q.1 == steamId)
      · rw [upsertStore, if_pos (by simp [List.any_cons, hany])]
        rw [List.map_cons, if_neg (by simp [hp]), List.filter_cons]
        simp only [hp, Bool.false_eq_true, if_false]
        have := ih hnd
        rw [upsertStore, if_pos hany] at this
        exact this
      · rw [upsertStore, if_neg (by simp [List.any_cons, hp, hany])]
        rw [List.cons_append, List.filter_cons]
        simp only [hp, Bool.false_eq_true, if_false]
        rw [List.filter_append]
        have hany' : (rest.any fun q => q.1 == steamId) = false :=
          Bool.eq_false_iff.mpr hany
        have hrest : rest.filter (fun q => q.1 == steamId) = [] := by
          rw [List.filter_eq_nil_iff]
          intro q hq
          simpa using List.any_eq_false.mp hany' q hq
        rw [hrest]
        simp [List.filter_cons]

theorem keysNodup_upsertStore (store : Store) (steamId : String) (e : CacheEntry)
    (h : keysNodup store) : keysNodup (upsertStore store steamId e) := by
  rw [upsertStore]
  split
  · rw [keysNodup, List.map_map]
    have : (store.map (Prod.fst ∘ fun p => if p.1 == steamId then (steamId, e) else p))
        = store.map Prod.fst := by
      apply List.map_congr_left
      intro p _
      by_cases hp : p.1 = steamId
      · simp [Function.comp_apply, hp]
      · simp [Function.comp_apply, hp]
    rw [this]
    exact h
  · next hany =>
    rw [keysNodup, List.map_append]
    rw [List.nodup_append]
    refine ⟨h, List.nodup_singleton _, ?_⟩
    intro x hx hx'
    simp only [List.map_cons, List.map_nil, List.mem_singleton] at hx'
    subst hx'
    rw [List.mem_map] at hx
    obtain ⟨q, hq, hfq⟩ := hx
    have hany' := Bool.eq_false_iff.mpr hany
    have := List.any_eq_false.mp hany' q hq
    rw [hfq] at this
    simp at this

/-- C2: `formatGameData` is a pure total function on every input list of
raw game records: a record with `playtime_forever = 125` minutes yields
`playtimeHours = "2.1 hours"` (minutes/60 rounded to one decimal); a
record with `rtime_last_played = 0` yields `lastPlayed = "Never"`; a
record with `img_icon_url = ""` yields `iconUrl = "No Icon URL
Available"`; and the output list preserves the input order (element `i`
of the output is the formatted element `i` of the input). -/
theorem formatGameData_spec (dateFmt : ℕ → String) (g : GameInfo) (gs : List GameInfo) :
    (g.playtime_forever = 125 → (formatGame dateFmt g).playtimeHours = "2.1 hours")
    ∧ (g.rtime_last_played = 0 → (formatGame dateFmt g).lastPlayed = "Never")
    ∧ (g.img_icon_url = "" → (formatGame dateFmt g).iconUrl = "No Icon URL Available")
    ∧ (formatGameData dateFmt gs).length = gs.length
    ∧ ∀ i : ℕ, (formatGameData dateFmt gs)[i]? = (gs[i]?).map (formatGame dateFmt) := by
  refine ⟨?_, ?_, ?_, by simp [formatGameData], ?_⟩
  · intro h
    simp only [formatGame]
    rw [h]
    decide
  · intro h
    simp [formatGame, h]
  · intro h
    simp [formatGame, h]
  · intro i
    simp [formatGameData]

/-- Witness for C2 at a concrete record. -/
theorem formatGameData_spec_witness :
    (formatGame exFmt exGame).playtimeHours = "2.1 hours"
    ∧ (formatGame exFmt exGame).lastPlayed = "Never"
    ∧ (formatGame exFmt exGame).iconUrl = "No Icon URL Available" :=
  ⟨(formatGameData_spec exFmt exGame []).1 rfl,
   (formatGameData_spec exFmt exGame []).2.1 rfl,
   (formatGameData_spec exFmt exGame []).2.2.1 rfl⟩

/-- C5: the cache store keeps at most one row per steamId: after two
upserts for the same id (on any store satisfying the primary-key
invariant), exactly one row with that key remains, and it carries the
payload and timestamp of the second call. -/
theorem upsert_twice_single_row (store : Store) (steamId : String) (e₁ e₂ : CacheEntry)
    (h : keysNodup store) :
    (upsertStore (upsertStore store steamId e₁) steamId e₂).filter
        (fun p => p.1 == steamId) = [(steamId, e₂)]
    ∧ lookupStore (upsertStore (upsertStore store steamId e₁) steamId e₂) steamId = some e₂ := by
  have h1 := keysNodup_upsertStore store steamId e₁ h
  have h2 := filter_upsertStore (upsertStore store steamId e₁) steamId e₂ h1
  refine ⟨h2, ?_⟩
  rw [lookupStore, find?_eq_head?_filter, h2]
  rfl

/-- Witness for C5 at a concrete store. -/
theorem upsert_twice_single_row_witness :
    (upsertStore (upsertStore [] exSid ⟨[], 1⟩) exSid ⟨[exB], 2⟩).filter
        (fun p => p.1 == exSid) = [(exSid, ⟨[exB], 2⟩)]
    ∧ lookupStore (upsertStore (upsertStore [] exSid ⟨[], 1⟩) exSid ⟨[exB], 2⟩) exSid
        = some ⟨[exB], 2⟩ :=
  upsert_twice_single_row [] exSid ⟨[], 1⟩ ⟨[exB], 2⟩ (by simp [keysNodup])

/-- C6: `getOwnedSteamGames` treats a structurally-empty-but-well-formed
response (inner object with zero keys) as zero games and returns the
empty list without error; every other inner shape without a `games`
field (well-formed wrapper, nonzero key count) raises the shape error. -/
theorem getOwnedSteamGames_shape (lc : String → String → ℤ) (r : OwnedGamesResponseObj) :
    (keyCount r = 0 → getOwnedSteamGames lc (some (some r)) = .ok [])
    ∧ (r.games = none → keyCount r ≠ 0 →
        getOwnedSteamGames lc (some (some r))
          = .error "Unexpected response structure from Steam API.") := by
  constructor
  · intro h
    have hg : r.games = none := by
      cases hg : r.games with
      | none => rfl
      | some gs =>
        rw [keyCount, hg] at h
        simp at h
    rw [getOwnedSteamGames, hg]
    simp [h]
  · intro hg h
    rw [getOwnedSteamGames, hg]
    simp [h]

/-- Witness for C6 at concrete response objects. -/
theorem getOwnedSteamGames_shape_witness :
    getOwnedSteamGames exLc (some (some ⟨none, none, 0⟩)) = .ok []
    ∧ getOwnedSteamGames exLc (some (some ⟨some 5, none, 0⟩))
        = .error "Unexpected response structure from Steam API." :=
  ⟨(getOwnedSteamGames_shape exLc ⟨none, none, 0⟩).1 rfl,
   (getOwnedSteamGames_shape exLc ⟨some 5, none, 0⟩).2 rfl (by decide)⟩

/-- C8: for every fetch whose well-formed response carries a non-empty
`games` field, `getOwnedSteamGames` returns the records sorted
ascending by name under the (abstract, locale-aware) `localeCompare`
comparator `lc`, assuming `lc` induces a total preorder; the result is a
permutation of the input records. -/
theorem getOwnedSteamGames_sorted (lc : String → String → ℤ)
    (htot : ∀ a b, lc a b ≤ 0 ∨ lc b a ≤ 0)
    (htrans : ∀ a b c, lc a b ≤ 0 → lc b c ≤ 0 → lc a c ≤ 0)
    (r : OwnedGamesResponseObj) (gs : List GameInfo)
    (hg : r.games = some gs) (_hne : gs ≠ []) :
    getOwnedSteamGames lc (some (some r)) = .ok (List.insertionSort (nameLe lc) gs)
    ∧ (List.insertionSort (nameLe lc) gs).Sorted (nameLe lc)
    ∧ (List.insertionSort (nameLe lc) gs).Perm gs := by
  haveI : IsTotal GameInfo (nameLe lc) := ⟨fun a b => htot a.name b.name⟩
  haveI : IsTrans GameInfo (nameLe lc) := ⟨fun a b c => htrans a.name b.name c.name⟩
  exact ⟨by rw [getOwnedSteamGames, hg],
    List.sorted_insertionSort (nameLe lc) gs,
    List.perm_insertionSort (nameLe lc) gs⟩

/-- Witness for C8 at a concrete comparator and record list. -/
theorem getOwnedSteamGames_sorted_witness :
    getOwnedSteamGames exLc (some (some ⟨some 2, some [exGame, exGame2], 0⟩))
        = .ok (List.insertionSort (nameLe exLc) [exGame, exGame2])
    ∧ (List.insertionSort (nameLe exLc) [exGame, exGame2]).Sorted (nameLe exLc)
    ∧ (List.insertionSort (nameLe exLc) [exGame, exGame2]).Perm [exGame, exGame2] :=
  getOwnedSteamGames_sorted exLc (fun _ _ => Or.inl le_rfl)
    (fun _ _ _ _ _ => le_rfl) ⟨some 2, some [exGame, exGame2], 0⟩ [exGame, exGame2]
    rfl (by simp)

/-- C9: an analyze request for a steamId with no cache entry fails with
404 and the message telling the caller to fetch game data first; the
handler short-circuits, so no prompt is built and no streaming call is
made (the `.ok` branch carrying the prompt input is never produced). -/
theorem analyzeHandler_missing_entry (store : Store) (steamId openaiApiKey : String)
    (hv : isValidSteamId64 steamId = true) (hk : openaiApiKey ≠ "")
    (hlook : lookupStore store steamId = none) :
    analyzeHandler store steamId openaiApiKey
      = .error ⟨404, "Game data not found for SteamID: " ++ steamId
          ++ ". Please fetch data first via /api/games/" ++ steamId⟩ := by
  have hne : steamId ≠ "" := by
    intro hcontra
    rw [hcontra] at hv
    simp [isValidSteamId64] at hv
  rw [analyzeHandler]
  rw [if_neg hne, hv]
  simp only [Bool.not_true, Bool.false_eq_true, if_false]
  rw [if_neg hk, hlook]

/-- Witness for C9 at a concrete empty store. -/
theorem analyzeHandler_missing_entry_witness :
    analyzeHandler [] exSid "sk-key"
      = .error ⟨404, "Game data not found for SteamID: " ++ exSid
          ++ ". Please fetch data first via /api/games/" ++ exSid⟩ :=
  analyzeHandler_missing_entry [] exSid "sk-key" (by decide) (by decide) rfl

/-- C10 fails as stated: at `playtime_forever = 9` the formatter prints
"0.1 hours" — the IEEE double of `9 / 60` lies below the `0.15`
half-way point, so `toFixed(1)` rounds down — and the parsed value
`1/10` is not `9/60` rounded to one decimal place, which is
`round(9 · 10 / 60) / 10 = 2/10`. -/
theorem playtime_round_trip_counterexample :
    (formatGame exFmt exGame9).playtimeHours = "0.1 hours"
    ∧ parseFloatD ((formatGame exFmt exGame9).playtimeHours) = some ⟨1, 1⟩
    ∧ ¬ Dec.toQ ⟨1, 1⟩ = (round ((9 : ℚ) * 10 / 60) : ℚ) / 10 := by
  refine ⟨by decide, by decide, ?_⟩
  have hround : round ((9 : ℚ) * 10 / 60) = 2 := by
    have h32 : (9 : ℚ) * 10 / 60 = 3 / 2 := by norm_num
    rw [h32, round_eq]
    have h2 : (3 : ℚ) / 2 + 1 / 2 = ((2 : ℤ) : ℚ) := by norm_num
    rw [h2, Int.floor_intCast]
  rw [hround]
  norm_num [Dec.toQ]

set_option maxRecDepth 8000 in
/-- C10, as amended: for every raw record, `parseFloat` applied to the
produced `playtimeHours` string recovers exactly `t/10` where `t` is
the number of tenths `toFixed(1)` prints from the double of
`playtime_forever / 60`; the prompt builder's `> 0.1` filter holds iff
`t ≥ 2` and the sort key is the same parsed value, so the filter and
sort operate on the printed rounded hours, not on the raw minutes.  For
minutes that are not half-way between tenths, `t` is `minutes · 10/60`
rounded to the nearest integer (verified for every `m < 601` with
`m % 6 ≠ 3`); at half-way minutes the digit follows the double, as the
counterexample at 9 minutes shows. -/
theorem playtime_round_trip_amended (dateFmt : ℕ → String) (g : GameInfo) :
    parseFloatD ((formatGame dateFmt g).playtimeHours)
      = some ⟨(tenths g.playtime_forever : ℤ), 1⟩
    ∧ Dec.toQ ⟨(tenths g.playtime_forever : ℤ), 1⟩ = (tenths g.playtime_forever : ℚ) / 10
    ∧ (promptKeep (formatGame dateFmt g) = true ↔ 2 ≤ tenths g.playtime_forever)
    ∧ playVal (formatGame dateFmt g) = ⟨(tenths g.playtime_forever : ℤ), 1⟩
    ∧ (∀ m : ℕ, m < 601 → m % 6 ≠ 3 → (tenths m : ℤ) = round ((m : ℚ) * 10 / 60)) := by
  have hm := parse_fixed1 g.playtime_forever
  have hparse : parseFloatD ((formatGame dateFmt g).playtimeHours)
      = some ⟨(tenths g.playtime_forever : ℤ), 1⟩ := by
    show parseFloatD (fixed1 g.playtime_forever ++ " hours") = _
    exact hm
  refine ⟨hparse, by simp [Dec.toQ], ?_, by rw [playVal, hparse]; rfl, ?_⟩
  · rw [promptKeep]
    show (match parseFloatD (fixed1 g.playtime_forever ++ " hours") with
      | some d => Dec.blt ⟨1, 1⟩ d
      | none => false) = true ↔ _
    rw [hm]
    simp only [Dec.blt, decide_eq_true_eq]
    norm_num
    omega
  · have hdec : ∀ m : ℕ, m < 601 → m % 6 ≠ 3 → tenths m = (m + 3) / 6 := by decide
    intro m hm' h6
    rw [hdec m hm' h6]
    exact halfUp_eq_round m

theorem gamesHandler_hit (now : ℤ) (store : Store) (apiKey steamId : String)
    (fetch : Except String (List FormattedGameInfo)) (e : CacheEntry)
    (hv : isValidSteamId64 steamId = true) (hk : apiKey ≠ "")
    (hlook : lookupStore store steamId = some e) (hu : cacheUsable now e = true) :
    gamesHandler now store apiKey steamId fetch
      = (.ok ⟨steamId, "cache-d1", e.gameData.length, cacheHitMessage⟩, store) := by
  rw [gamesHandler, hv]
  simp only [Bool.not_true, Bool.false_eq_true, if_false]
  rw [if_neg hk]
  simp [hlook, hu]

theorem gamesHandler_fetch (now : ℤ) (store : Store) (apiKey steamId : String)
    (fetch : Except String (List FormattedGameInfo))
    (hv : isValidSteamId64 steamId = true) (hk : apiKey ≠ "")
    (hmiss : lookupStore store steamId = none ∨
      ∃ e, lookupStore store steamId = some e ∧ cacheUsable now e = false) :
    gamesHandler now store apiKey steamId fetch = fetchAndStore now store steamId fetch := by
  rw [gamesHandler, hv]
  simp only [Bool.not_true, Bool.false_eq_true, if_false]
  rw [if_neg hk]
  rcases hmiss with hnone | ⟨e, hsome, hu⟩
  · simp [hnone]
  · simp [hsome, hu]

/-- C1: a stored entry is answered as a cache hit (`source = cache-d1`)
only if its timestamp is within the 7-day TTL of `now` and its stored
game list is non-empty; and every stored entry with game count 0 sends
the orchestrator to the upstream fetch path even when the entry is
within the TTL window. -/
theorem gamesHandler_cache_hit_policy (now : ℤ) (store : Store) (apiKey steamId : String)
    (fetch : Except String (List FormattedGameInfo)) (e : CacheEntry)
    (hv : isValidSteamId64 steamId = true) (hk : apiKey ≠ "")
    (hlook : lookupStore store steamId = some e) :
    (∀ r : GamesResponse, (gamesHandler now store apiKey steamId fetch).1 = .ok r →
        r.source = "cache-d1" →
        now - e.cachedAt ≤ (CACHE_TTL_SECONDS : ℤ) * 1000 ∧ 0 < e.gameData.length)
    ∧ (e.gameData.length = 0 →
        gamesHandler now store apiKey steamId fetch = fetchAndStore now store steamId fetch) := by
  constructor
  · intro r hr hsrc
    by_cases hu : cacheUsable now e = true
    · simp only [cacheUsable, Bool.and_eq_true, Bool.not_eq_true', decide_eq_false_iff_not,
        decide_eq_true_eq] at hu
      exact ⟨by omega, hu.2⟩
    · have hfetch := gamesHandler_fetch now store apiKey steamId fetch hv hk
        (Or.inr ⟨e, hlook, Bool.eq_false_iff.mpr hu⟩)
      rw [hfetch] at hr
      cases hf : fetch with
      | error msg =>
        rw [hf] at hr
        simp [fetchAndStore] at hr
      | ok data =>
        rw [hf] at hr
        simp only [fetchAndStore, Except.ok.injEq] at hr
        rw [← hr] at hsrc
        simp at hsrc
  · intro h0
    exact gamesHandler_fetch now store apiKey steamId fetch hv hk
      (Or.inr ⟨e, hlook, by simp [cacheUsable, h0]⟩)

/-- Witness for C1 at a concrete zero-count entry within the TTL. -/
theorem gamesHandler_cache_hit_policy_witness :
    gamesHandler 0 [(exSid, ⟨[], -5⟩)] "key" exSid (.ok [])
      = fetchAndStore 0 [(exSid, ⟨[], -5⟩)] exSid (.ok []) :=
  (gamesHandler_cache_hit_policy 0 [(exSid, ⟨[], -5⟩)] "key" exSid (.ok []) ⟨[], -5⟩
    (by decide) (by decide) (by decide)).2 rfl

/-- C4: when the request reaches the upstream fetch step (no stored
entry, or a stored entry the freshness policy rejects) and the upstream
call fails, the whole request fails with the 502 upstream-dependency
error and the cache store is returned unchanged: no write or upsert
occurs on the error path. -/
theorem gamesHandler_upstream_failure (now : ℤ) (store : Store) (apiKey steamId errMsg : String)
    (hv : isValidSteamId64 steamId = true) (hk : apiKey ≠ "")
    (hmiss : lookupStore store steamId = none ∨
      ∃ e, lookupStore store steamId = some e ∧ cacheUsable now e = false) :
    gamesHandler now store apiKey steamId (.error errMsg)
      = (.error ⟨502, "Failed to fetch data from Steam API: "
          ++ (if errMsg = "" then "Unknown error" else errMsg)⟩, store) := by
  rw [gamesHandler_fetch now store apiKey steamId (.error errMsg) hv hk hmiss]
  rfl

/-- Witness for C4 at a concrete empty store. -/
theorem gamesHandler_upstream_failure_witness :
    gamesHandler 0 [] "key" exSid (.error "boom")
      = (.error ⟨502, "Failed to fetch data from Steam API: boom"⟩, ([] : Store)) := by
  have h := gamesHandler_upstream_failure 0 [] "key" exSid "boom" (by decide) (by decide)
    (Or.inl rfl)
  refine h.trans ?_
  rw [if_neg (by decide : ¬("boom" = ""))]
  rfl

/-- C7: orchestrator idempotence: for a stored entry that is within the
7-day TTL at both call times and has a non-zero game count, two
consecutive orchestrator calls (the second running on the store returned
by the first) both answer `source = cache-d1` with the identical
`gameCount`, namely the cached list's length. -/
theorem gamesHandler_idempotent (now₁ now₂ : ℤ) (store : Store) (apiKey steamId : String)
    (fetch₁ fetch₂ : Except String (List FormattedGameInfo)) (e : CacheEntry)
    (hv : isValidSteamId64 steamId = true) (hk : apiKey ≠ "")
    (hlook : lookupStore store steamId = some e)
    (hf₁ : now₁ - (CACHE_TTL_SECONDS : ℤ) * 1000 < e.cachedAt)
    (hf₂ : now₂ - (CACHE_TTL_SECONDS : ℤ) * 1000 < e.cachedAt)
    (hne : 0 < e.gameData.length) :
    (gamesHandler now₁ store apiKey steamId fetch₁).1
        = .ok ⟨steamId, "cache-d1", e.gameData.length, cacheHitMessage⟩
    ∧ (gamesHandler now₂ (gamesHandler now₁ store apiKey steamId fetch₁).2
          apiKey steamId fetch₂).1
        = .ok ⟨steamId, "cache-d1", e.gameData.length, cacheHitMessage⟩ := by
  have hu₁ : cacheUsable now₁ e = true := by
    simp only [cacheUsable, Bool.and_eq_true, Bool.not_eq_true', decide_eq_false_iff_not,
      decide_eq_true_eq]
    exact ⟨by omega, hne⟩
  have hu₂ : cacheUsable now₂ e = true := by
    simp only [cacheUsable, Bool.and_eq_true, Bool.not_eq_true', decide_eq_false_iff_not,
      decide_eq_true_eq]
    exact ⟨by omega, hne⟩
  have hfirst := gamesHandler_hit now₁ store apiKey steamId fetch₁ e hv hk hlook hu₁
  have hsecond := gamesHandler_hit now₂ store apiKey steamId fetch₂ e hv hk hlook hu₂
  refine ⟨by rw [hfirst], ?_⟩
  rw [hfirst]
  show (gamesHandler now₂ store apiKey steamId fetch₂).1 = _
  rw [hsecond]

/-- Witness for C7 at a concrete fresh non-empty entry. -/
theorem gamesHandler_idempotent_witness :
    (gamesHandler 10 [(exSid, ⟨[exB], 5⟩)] "key" exSid (.ok [])).1
        = .ok ⟨exSid, "cache-d1", 1, cacheHitMessage⟩
    ∧ (gamesHandler 10 (gamesHandler 10 [(exSid, ⟨[exB], 5⟩)] "key" exSid (.ok [])).2
          "key" exSid (.error "x")).1
        = .ok ⟨exSid, "cache-d1", 1, cacheHitMessage⟩ :=
  gamesHandler_idempotent 10 10 [(exSid, ⟨[exB], 5⟩)] "key" exSid (.ok []) (.error "x")
    ⟨[exB], 5⟩ (by decide) (by decide) (by decide) (by decide) (by decide) (by decide)

/-- C3: the prompt builder keeps only games whose parsed playtime
exceeds 0.1 hours, sorts the kept games by parsed playtime descending,
truncates to at most 100 entries, renders them as "- name: playtime"
lines joined by newlines, and substitutes the fixed "no significant
playtime" message when the filtered set is empty and the fixed "no
games" message when the input is empty or absent. -/
theorem formatGamesForPrompt_spec (games : List FormattedGameInfo) :
    formatGamesForPrompt none = "The user has no games or the data is unavailable."
    ∧ (games = [] → formatGamesForPrompt (some games)
        = "The user has no games or the data is unavailable.")
    ∧ (∀ g ∈ relevantGames games, ∃ d, parseFloatD g.playtimeHours = some d
        ∧ (1 : ℚ)/10 < d.toQ)
    ∧ (relevantGames games).Pairwise (fun a b => (playVal b).toQ ≤ (playVal a).toQ)
    ∧ (relevantGames games).length ≤ 100
    ∧ (games ≠ [] → relevantGames games = [] → formatGamesForPrompt (some games)
        = "The user owns games, but none have significant playtime recorded.")
    ∧ (games ≠ [] → relevantGames games ≠ [] → formatGamesForPrompt (some games)
        = String.intercalate "\n"
            ((relevantGames games).map
              (fun game => "- " ++ game.name ++ ": " ++ game.playtimeHours))) := by
  refine ⟨rfl, ?_, ?_, ?_, ?_, ?_, ?_⟩
  · intro h
    subst h
    rfl
  · intro g hg
    have h1 : g ∈ List.insertionSort playGe (games.filter promptKeep) :=
      List.take_subset _ _ hg
    have h2 : g ∈ games.filter promptKeep :=
      (List.perm_insertionSort playGe _).subset h1
    have h3 : promptKeep g = true := List.of_mem_filter h2
    rw [promptKeep] at h3
    cases hp : parseFloatD g.playtimeHours with
    | none =>
      rw [hp] at h3
      simp at h3
    | some d =>
      rw [hp] at h3
      refine ⟨d, rfl, ?_⟩
      have hlt := (Dec.blt_iff ⟨1, 1⟩ d).mp h3
      have h110 : Dec.toQ ⟨1, 1⟩ = (1 : ℚ)/10 := by norm_num [Dec.toQ]
      rw [h110] at hlt
      exact hlt
  · haveI : IsTotal FormattedGameInfo playGe :=
      ⟨fun a b => by
        simp only [playGe, Dec.ble_iff]
        exact (le_total _ _).symm⟩
    haveI : IsTrans FormattedGameInfo playGe :=
      ⟨fun _ _ _ hab hbc => by
        simp only [playGe, Dec.ble_iff] at *
        exact le_trans hbc hab⟩
    have hs : (List.insertionSort playGe (games.filter promptKeep)).Pairwise playGe :=
      List.sorted_insertionSort playGe _
    have ht : List.Sublist (relevantGames games)
        (List.insertionSort playGe (games.filter promptKeep)) :=
      List.take_sublist _ _
    exact (hs.sublist ht).imp (fun h => (Dec.ble_iff _ _).mp h)
  · exact List.length_take_le _ _
  · intro hne hrel
    simp only [formatGamesForPrompt]
    rw [if_neg (by simpa [List.length_eq_zero] using hne),
      if_pos (by rw [hrel]; rfl)]
  · intro hne hrel
    simp only [formatGamesForPrompt]
    rw [if_neg (by simpa [List.length_eq_zero] using hne),
      if_neg (by simpa [List.length_eq_zero] using hrel)]

/-- Witness for C3: on `[A 0.05h, B 10.0h, C 5.0h]` the rendered block
lists only `B` then `C`. -/
theorem formatGamesForPrompt_spec_witness :
    formatGamesForPrompt (some [exA, exB, exC]) = "- B: 10.0 hours\n- C: 5.0 hours" := by
  have h := (formatGamesForPrompt_spec [exA, exB, exC]).2.2.2.2.2.2 (by decide) (by decide)
  rw [h]
  decide
